import Mathlib

/-!
Formal model of the imitation-GAN training program (main.py), shallowly
embedded in Lean. We model the solved-state tracker of the training loop,
the actor sampling-correction computation, the critic cost transform
(discounting and Huber-style smoothing), the actor-phase loss, the
startup configuration checks, and the tied-weight parameter store.
Machine floats are modelled as exact rationals.
-/

namespace ImitationGan

/-! ### Solved tracker (main.py lines 235-236, 242-245, 394-405) -/

/-- State of the solved tracker: the pair (solved streak, solved_fail counter). -/
abbrev SolvedState := Nat × Nat

/-- One update of the solved tracker from the result of one solved-predicate
check, from main.py lines 394-405: a success adds 1 to the streak; a failure
with a positive streak adds 1 to the fail counter and resets both counters to
zero once the fail counter reaches maxFail; a failure with a zero streak sets
both counters to zero. -/
def solvedStep (maxFail : Nat) (s : SolvedState) (success : Bool) : SolvedState :=
  if success then
    (s.1 + 1, s.2)
  else
    if s.1 > 0 then
      (if s.2 + 1 ≥ maxFail then (0, 0) else (s.1, s.2 + 1))
    else
      (0, 0)

/-- The sequence of tracker states produced by a list of solved-predicate
results, starting from the (0, 0) state set at main.py lines 235-236. -/
def solvedTrace (maxFail : Nat) (results : List Bool) : List SolvedState :=
  List.scanl (solvedStep maxFail) (0, 0) results

/-! ### Tied weights of the actor (main.py lines 29-39)

Parameter objects are mutable storage shared by reference; we model the
heap of parameters as a store indexed by reference ids, and each module
field as a reference id into that store. -/

/-- Heap of parameter values, indexed by reference id. -/
def Store (W : Type) := Nat → W

/-- Write one parameter value in the store. -/
def Store.write {W : Type} (σ : Store W) (r : Nat) (w : W) : Store W :=
  fun q => if q = r then w else σ q

/-- Read one parameter value from the store. -/
def Store.read {W : Type} (σ : Store W) (r : Nat) : W := σ r

/-- References held by the actor modules to their weight parameters. -/
structure ActorRefs where
  embeddingWeight : Nat
  dist1Weight : Nat
  dist2Weight : Nat

/-- An actor: its references together with the parameter heap. -/
structure ActorState (W : Type) where
  refs : ActorRefs
  store : Store W

/-- Actor construction, main.py lines 29-39: fresh parameters are allocated
for the embedding weight (ref 0), the dist1 weight (ref 1) and the dist2
weight (ref 2); the tying assignment on line 36 then rebinds the embedding
reference to the dist2 parameter, so both name one shared parameter. -/
def Actor.init {W : Type} (wEmb wD1 wD2 : W) : ActorState W :=
  let store0 : Store W := fun r => if r = 0 then wEmb else if r = 1 then wD1 else wD2
  let refs0 : ActorRefs := ⟨0, 1, 2⟩
  let refs1 : ActorRefs := { refs0 with embeddingWeight := refs0.dist2Weight }
  ⟨refs1, store0⟩

/-- Mutations of actor parameters (optimizer steps, manual writes): each one
updates the heap at the reference held by the corresponding module. -/
inductive ActorOp (W : Type) where
  | writeEmbedding (w : W)
  | writeDist1 (w : W)
  | writeDist2 (w : W)

/-- Apply one parameter mutation. -/
def applyOp {W : Type} (A : ActorState W) : ActorOp W → ActorState W
  | .writeEmbedding w => { A with store := A.store.write A.refs.embeddingWeight w }
  | .writeDist1 w => { A with store := A.store.write A.refs.dist1Weight w }
  | .writeDist2 w => { A with store := A.store.write A.refs.dist2Weight w }

/-- Apply a sequence of parameter mutations. -/
def applyOps {W : Type} (A : ActorState W) (ops : List (ActorOp W)) : ActorState W :=
  ops.foldl applyOp A

/-- Read the embedding weight through the embedding module reference. -/
def readEmbedding {W : Type} (A : ActorState W) : W := A.store.read A.refs.embeddingWeight

/-- Read the output-projection weight through the dist2 module reference. -/
def readDist2 {W : Type} (A : ActorState W) : W := A.store.read A.refs.dist2Weight

/-- Helper: parameter mutations never change the references held by the
modules, only the heap. -/
theorem applyOps_refs {W : Type} (A : ActorState W) (ops : List (ActorOp W)) :
    (applyOps A ops).refs = A.refs := by
  induction ops generalizing A with
  | nil => rfl
  | cons op ops ih =>
    rw [applyOps, List.foldl_cons, ← applyOps, ih]
    cases op <;> rfl

/-! ### Actor sampling corrections (main.py lines 41-82)

The recurrent cell and the softmax are external numeric collaborators; we
model one generation step at the probability level: the raw distribution
assigns the sampled token some probability onp, and the distribution that
was actually sampled from assigns it the off-policy probability below. -/

/-- Clamp of a probability to the interval from 1e-8 to 1, main.py
lines 74-75. -/
def clampProb (x : ℚ) : ℚ := min (max x (1 / 100000000)) 1

/-- Epsilon coin flip of main.py line 60: a batch element draws its token
from the uniform distribution when its fresh uniform draw r satisfies
eps ≥ r. -/
def drawRandomly (eps r : ℚ) : Bool := decide (r ≤ eps)

/-- Probability of the sampled token under the distribution actually sampled
from, main.py lines 55-72: with eps sampling on and the coin flip raised the
row was replaced by the uniform distribution (probability 1 / vocab), with
the flip not raised it is the raw row, and with eps sampling off the code
reuses the on-policy probability itself. -/
def offpolicyProb (epsSample draw : Bool) (vocab : Nat) (onp : ℚ) : ℚ :=
  if epsSample then (if draw then 1 / vocab else onp) else onp

/-- Importance-sampling correction for one sampled token, main.py
lines 68-78: both probabilities are clamped and then divided. -/
def stepCorrection (epsSample draw : Bool) (vocab : Nat) (onp : ℚ) : ℚ :=
  clampProb onp / clampProb (offpolicyProb epsSample draw vocab onp)

/-- Corrections returned by one run of the actor forward pass, one entry per
(batch element, step) pair, given the per-entry coin flips and the raw
probabilities of the sampled tokens. -/
def generateCorrections (epsSample : Bool) (vocab : Nat) (draws : List Bool)
    (onps : List ℚ) : List ℚ :=
  List.zipWith (fun d p => stepCorrection epsSample d vocab p) draws onps

/-- Helper: the clamped probability is at least 1e-8, hence positive. -/
theorem clampProb_pos (x : ℚ) : 0 < clampProb x := by
  have h1 : (0 : ℚ) < 1 / 100000000 := by norm_num
  exact lt_min (lt_of_lt_of_le h1 (le_max_right _ _)) one_pos

/-- Helper: the clamped probability is at most 1. -/
theorem clampProb_le_one (x : ℚ) : clampProb x ≤ 1 := min_le_right _ _

/-- Helper: the clamped probability is at least 1e-8. -/
theorem le_clampProb (x : ℚ) : 1 / 100000000 ≤ clampProb x :=
  le_min (le_max_right _ _) (by norm_num)

/-- Helper: clamping a value that is at most 1 only applies the lower bound. -/
theorem clampProb_of_le_one {x : ℚ} (hx : x ≤ 1) : clampProb x = max x (1 / 100000000) := by
  unfold clampProb
  exact min_eq_left (max_le hx (by norm_num))

/-! ### Critic forward pass (main.py lines 85-123, 353)

The embedding, the recurrent encoder and the linear cost head are external
numeric collaborators; we model them by an abstract recurrent step function
on hidden states (taking the next token id) and an abstract cost head
producing one vocabulary-sized row of rational costs per hidden state. -/

/-- Outputs of the recurrent encoder: one hidden state per input position,
starting from the zero state h0. -/
def gruOutputs {σ : Type} (step : σ → Nat → σ) (h0 : σ) (inputs : List Nat) : List σ :=
  (inputs.scanl step h0).tail

/-- Per-position cost rows for one sequence, main.py lines 101-110: the start
token 0 is prepended, each position yields a vocabulary-sized cost row, and
the final position (which corresponds to the padding shift) is dropped. -/
def criticRawCosts {σ : Type} (step : σ → Nat → σ) (h0 : σ) (costHead : σ → List ℚ)
    (row : List Nat) : List (List ℚ) :=
  ((gruOutputs step h0 (0 :: row)).map costHead).dropLast

/-- Discounting of one sequence of cost rows, main.py lines 111-115: when
gamma is below 1 - 1e-8, the cost row at step i is multiplied by gamma ^ i;
otherwise the rows are returned unchanged. -/
def discountRow (gamma : ℚ) (costs : List (List ℚ)) : List (List ℚ) :=
  if gamma < 1 - 1 / 100000000 then
    List.zipWith (fun i cv => cv.map (fun c => c * gamma ^ i)) (List.range costs.length) costs
  else costs

/-- Huber-style smoothing of one cost entry, main.py lines 116-123: when
smooth_zero is above 1e-4, entries with absolute value at least smooth_zero
map to the shifted absolute value and the rest map to the scaled square;
otherwise the plain absolute value is returned. -/
def smoothCost (s c : ℚ) : ℚ :=
  let costsAbs := |c|
  if 1 / 10000 < s then
    let select : ℚ := if s ≤ costsAbs then 1 else 0
    select * (costsAbs - s / 2) + (1 - select) * (c ^ 2 / (s * 2))
  else
    costsAbs

/-- Full critic forward pass on one sequence: raw cost rows, then
discounting, then smoothing of every entry. -/
def criticForwardRow {σ : Type} (step : σ → Nat → σ) (h0 : σ) (costHead : σ → List ℚ)
    (gamma s : ℚ) (row : List Nat) : List (List ℚ) :=
  (discountRow gamma (criticRawCosts step h0 costHead row)).map (fun cv => cv.map (smoothCost s))

/-- Full critic forward pass on a batch of sequences; every batch element
starts from the same zero state. -/
def criticForward {σ : Type} (step : σ → Nat → σ) (h0 : σ) (costHead : σ → List ℚ)
    (gamma s : ℚ) (actions : List (List Nat)) : List (List (List ℚ)) :=
  actions.map (criticForwardRow step h0 costHead gamma s)

/-- Per-token gather of main.py line 272: for each batch element and step,
select from the cost row the entry of the token actually taken. -/
def gatherTaken (costs : List (List (List ℚ))) (actions : List (List Nat)) :
    List (List ℚ) :=
  List.zipWith (fun crow arow => List.zipWith (fun cv (t : Nat) => cv.getD t 0) crow arow)
    costs actions

/-- Gamma annealing step at the end of each outer iteration, main.py
line 353. -/
def gammaUpdate (inc gamma : ℚ) : ℚ := min (gamma + inc) 1

/-- Gamma value after n outer iterations, starting from the configured
gamma. -/
def gammaSeq (gamma0 inc : ℚ) : Nat → ℚ
  | 0 => gamma0
  | n + 1 => gammaUpdate inc (gammaSeq gamma0 inc n)

/-! ### Actor-phase loss (main.py lines 311-331)

Tensors are modelled as functions over Fin-indexed coordinates: batch b,
step t, vocabulary entry v. -/

/-- Per-token gather along the vocabulary dimension, main.py lines 316,
327-328. -/
def gatherBT {B T V : Nat} (x : Fin B → Fin T → Fin V → ℚ) (gen : Fin B → Fin T → Fin V) :
    Fin B → Fin T → ℚ := fun b t => x b t (gen b t)

/-- Advantage baseline of main.py line 319: the expected critic cost under
the current actor distribution at coordinate (b, t). -/
def actorBaseline {B T V : Nat} (costs probs : Fin B → Fin T → Fin V → ℚ)
    (b : Fin B) (t : Fin T) : ℚ :=
  ∑ v, costs b t v * probs b t v

/-- Entropy term of main.py line 330. -/
def actorEntropy {B T V : Nat} (probs logprobs : Fin B → Fin T → Fin V → ℚ) : ℚ :=
  -(∑ b, ∑ t, ∑ v, probs b t v * logprobs b t v) / (B : ℚ)

/-- Actor-phase loss exactly as computed by main.py lines 316-331 (outside
the periodic visualization branch): the disadvantage tensor is the cost
tensor minus the broadcast baseline when use_advantage is on, it is
gathered at the taken tokens, multiplied with corrections and gathered
log-probabilities, summed, divided by the batch size, and the entropy
bonus is subtracted. -/
def codeActorLoss {B T V : Nat} (useAdvantage : Bool) (entropyReg : ℚ)
    (costs probs logprobs : Fin B → Fin T → Fin V → ℚ)
    (corrections : Fin B → Fin T → ℚ) (gen : Fin B → Fin T → Fin V) : ℚ :=
  let disadv : Fin B → Fin T → Fin V → ℚ :=
    if useAdvantage then fun b t v => costs b t v - actorBaseline costs probs b t
    else costs
  let loss := (∑ b, ∑ t,
    gatherBT disadv gen b t * corrections b t * gatherBT logprobs gen b t) / (B : ℚ)
  loss - entropyReg * actorEntropy probs logprobs

/-- Spec reading of the actor-phase loss: the mean over the batch of
(advantage times importance-correction times log-probability of the token
taken) minus entropy_reg times entropy, where with use_advantage on the
advantage is the per-token critic cost minus the expected critic cost
under the actor distribution. -/
def specActorLoss {B T V : Nat} (useAdvantage : Bool) (entropyReg : ℚ)
    (costs probs logprobs : Fin B → Fin T → Fin V → ℚ)
    (corrections : Fin B → Fin T → ℚ) (gen : Fin B → Fin T → Fin V) : ℚ :=
  let advantage : Fin B → Fin T → ℚ := fun b t =>
    if useAdvantage then costs b t (gen b t) - ∑ v, costs b t v * probs b t v
    else costs b t (gen b t)
  (∑ b, ∑ t, advantage b t * corrections b t * logprobs b t (gen b t)) / (B : ℚ)
    - entropyReg * (-(∑ b, ∑ t, ∑ v, probs b t v * logprobs b t v) / (B : ℚ))

/-! ### Startup configuration checks (main.py lines 201, 207-229)

The outcome of program startup is modelled in the Except monad: a
configuration error aborts before the training loop contributes anything
to the result. -/

/-- Startup configuration fields relevant to the checks. -/
structure StartupOpt where
  task : String
  batchSize : Nat
  replayActors : Nat
  criticIters : Nat

/-- Replay capacity computed at main.py line 201. -/
def replaySize (o : StartupOpt) : Nat := o.replayActors * o.batchSize * o.criticIters

/-- Startup checks of main.py lines 207-229: an unknown task name exits
with an error, then the assert on line 225 requires the replay capacity to
be at least the batch size. -/
def startupChecks (o : StartupOpt) : Except String Unit :=
  if o.task = "words" ∨ o.task = "longterm" ∨ o.task = "lm" then
    if o.batchSize ≤ replaySize o then Except.ok ()
    else Except.error "AssertionError: replay_size >= batch_size"
  else Except.error ("error: invalid task name: " ++ o.task)

/-- The whole program: the training loop runs only when the startup checks
pass. -/
def runProgram {α : Type} (o : StartupOpt) (trainingLoop : StartupOpt → α) :
    Except String α :=
  (startupChecks o).map (fun _ => trainingLoop o)

/-! ### Theorems for claims C1 and C2 -/

/-- C1: the solved tracker follows the specified state machine. A successful
check adds 1 to the streak and keeps the fail counter; a failed check with a
positive streak adds 1 to the fail counter, resetting both counters to zero
exactly when the fail counter reaches solved_max_fail; a failed check with a
zero streak keeps both counters at zero. With solved_threshold 3 and
solved_max_fail 1, the result sequence success, success, fail, success,
success yields streak values 1, 2, 0, 1, 2 and the streak never reaches 3,
so the training loop does not exit early. -/
theorem c1_solved_tracker (maxFail : Nat) (s : SolvedState) (f : Nat) :
    solvedStep maxFail s true = (s.1 + 1, s.2) ∧
    (0 < s.1 → s.2 + 1 < maxFail → solvedStep maxFail s false = (s.1, s.2 + 1)) ∧
    (0 < s.1 → maxFail ≤ s.2 + 1 → solvedStep maxFail s false = (0, 0)) ∧
    solvedStep maxFail (0, f) false = (0, 0) ∧
    (solvedTrace 1 [true, true, false, true, true]).tail.map Prod.fst = [1, 2, 0, 1, 2] ∧
    (∀ st ∈ solvedTrace 1 [true, true, false, true, true], st.1 < 3) := by
  refine ⟨rfl, fun h1 h2 => ?_, fun h1 h2 => ?_, ?_, by decide, by decide⟩
  · simp only [solvedStep, Bool.false_eq_true, if_false, if_pos h1]
    rw [if_neg (by omega)]
  · simp only [solvedStep, Bool.false_eq_true, if_false, if_pos h1]
    rw [if_pos (by omega)]
  · simp [solvedStep]

/-- Witness for C1 at concrete inputs: with maxFail 2 and state (streak 1,
fails 0), one failed check moves to (1, 1). -/
theorem c1_solved_tracker_witness :
    0 < 1 ∧ 0 + 1 < 2 ∧ solvedStep 2 (1, 0) false = (1, 0 + 1) :=
  ⟨by decide, by decide, (c1_solved_tracker 2 (1, 0) 0).2.1 (by decide) (by decide)⟩

/-- C2: the embedding weight of the actor and the dist2 (output projection)
weight are one shared parameter. After construction the two references are
equal, they stay equal under every sequence of parameter mutations, and a
write through either reference is read back exactly through the other. -/
theorem c2_weight_tying {W : Type} (wEmb wD1 wD2 : W) (ops : List (ActorOp W)) (w : W) :
    (applyOps (Actor.init wEmb wD1 wD2) ops).refs.embeddingWeight =
      (applyOps (Actor.init wEmb wD1 wD2) ops).refs.dist2Weight ∧
    readEmbedding (applyOps (Actor.init wEmb wD1 wD2) ops) =
      readDist2 (applyOps (Actor.init wEmb wD1 wD2) ops) ∧
    readDist2 (applyOp (applyOps (Actor.init wEmb wD1 wD2) ops) (.writeEmbedding w)) = w ∧
    readEmbedding (applyOp (applyOps (Actor.init wEmb wD1 wD2) ops) (.writeDist2 w)) = w := by
  have hrefs : (applyOps (Actor.init wEmb wD1 wD2) ops).refs = ⟨2, 1, 2⟩ := by
    rw [applyOps_refs]; rfl
  refine ⟨by rw [hrefs], ?_, ?_, ?_⟩
  · simp [readEmbedding, readDist2, hrefs]
  · simp [readDist2, applyOp, hrefs, Store.read, Store.write]
  · simp [readEmbedding, applyOp, hrefs, Store.read, Store.write]

/-- Helper: the off-policy probability is at most 1 whenever the on-policy
probability is. -/
theorem offpolicyProb_le_one (epsSample draw : Bool) (vocab : Nat) {onp : ℚ}
    (h1 : onp ≤ 1) : offpolicyProb epsSample draw vocab onp ≤ 1 := by
  unfold offpolicyProb
  split
  · split
    · rcases Nat.eq_zero_or_pos vocab with h | h
      · simp [h]
      · have hv : (0 : ℚ) < vocab := by exact_mod_cast h
        rw [div_le_one hv]
        exact_mod_cast h
    · exact h1
  · exact h1

/-- Helper: with eps sampling off the correction is exactly 1, since the
code reuses the on-policy probability as the off-policy probability. -/
theorem stepCorrection_no_eps (draw : Bool) (vocab : Nat) (onp : ℚ) :
    stepCorrection false draw vocab onp = 1 := by
  unfold stepCorrection offpolicyProb
  simp only [Bool.false_eq_true, if_false]
  exact div_self (clampProb_pos onp).ne'

/-- C3: for every sampled token and every epsilon in the unit interval, the
correction factor of the actor is strictly positive and bounded above by
1e8 (hence finite), and it equals the on-policy probability divided by the
off-policy probability with each probability clamped below at 1e-8 before
the division. -/
theorem c3_correction_positive_finite (epsSample : Bool) (eps r onp : ℚ) (vocab : Nat)
    (_heps0 : 0 ≤ eps) (_heps1 : eps ≤ 1) (_h0 : 0 ≤ onp) (h1 : onp ≤ 1) :
    0 < stepCorrection epsSample (drawRandomly eps r) vocab onp ∧
    stepCorrection epsSample (drawRandomly eps r) vocab onp ≤ 100000000 ∧
    stepCorrection epsSample (drawRandomly eps r) vocab onp =
      max onp (1 / 100000000) /
        max (offpolicyProb epsSample (drawRandomly eps r) vocab onp) (1 / 100000000) := by
  refine ⟨div_pos (clampProb_pos _) (clampProb_pos _), ?_, ?_⟩
  · have hb := div_le_div₀ (by norm_num : (0 : ℚ) ≤ 1) (clampProb_le_one onp)
      (by norm_num : (0 : ℚ) < 1 / 100000000)
      (le_clampProb (offpolicyProb epsSample (drawRandomly eps r) vocab onp))
    calc stepCorrection epsSample (drawRandomly eps r) vocab onp
        ≤ 1 / (1 / 100000000) := hb
      _ = 100000000 := by norm_num
  · unfold stepCorrection
    rw [clampProb_of_le_one h1,
      clampProb_of_le_one (offpolicyProb_le_one epsSample (drawRandomly eps r) vocab h1)]

/-- Witness for C3 at concrete inputs: eps sampling on, eps 1/2, uniform
draw 1/4, on-policy probability 1/3, vocabulary size 5. -/
theorem c3_correction_positive_finite_witness :
    (0 : ℚ) ≤ 1 / 2 ∧ (1 / 2 : ℚ) ≤ 1 ∧ (0 : ℚ) ≤ 1 / 3 ∧ (1 / 3 : ℚ) ≤ 1 ∧
    0 < stepCorrection true (drawRandomly (1 / 2) (1 / 4)) 5 (1 / 3) :=
  ⟨by norm_num, by norm_num, by norm_num, by norm_num,
    (c3_correction_positive_finite true (1 / 2) (1 / 4) (1 / 3) 5
      (by norm_num) (by norm_num) (by norm_num) (by norm_num)).1⟩

/-- C9: with eps sampling disabled, the off-policy probability reused by the
code is the on-policy probability itself, so every correction factor
returned by the actor forward pass equals exactly 1. -/
theorem c9_no_eps_corrections_one (vocab : Nat) (draws : List Bool) (onps : List ℚ) (c : ℚ)
    (hc : c ∈ generateCorrections false vocab draws onps) : c = 1 := by
  induction draws generalizing onps with
  | nil => simp [generateCorrections] at hc
  | cons d ds ih =>
    cases onps with
    | nil => simp [generateCorrections] at hc
    | cons p ps =>
      simp only [generateCorrections, List.zipWith_cons_cons, List.mem_cons] at hc
      rcases hc with h | h
      · rw [h]; exact stepCorrection_no_eps d vocab p
      · exact ih ps h

/-- Witness for C9 at concrete inputs: a two-step generation with eps
sampling off has all corrections equal to 1. -/
theorem c9_no_eps_corrections_one_witness :
    stepCorrection false true 3 (1 / 2) ∈
      generateCorrections false 3 [true, false] [1 / 2, 1 / 4] ∧
    stepCorrection false true 3 (1 / 2) = 1 :=
  ⟨by simp [generateCorrections], c9_no_eps_corrections_one 3 [true, false] [1 / 2, 1 / 4] _
    (by simp [generateCorrections])⟩

/-! ### Helper lemmas on the critic model -/

/-- Helper: every element of a zipWith comes from elements of the two
lists. -/
theorem exists_of_mem_zipWith {α β γ : Type} {f : α → β → γ} {l₁ : List α} {l₂ : List β}
    {x : γ} (h : x ∈ List.zipWith f l₁ l₂) : ∃ a ∈ l₁, ∃ b ∈ l₂, x = f a b := by
  induction l₁ generalizing l₂ with
  | nil => simp at h
  | cons a as ih =>
    cases l₂ with
    | nil => simp at h
    | cons b bs =>
      simp only [List.zipWith_cons_cons, List.mem_cons] at h
      rcases h with h | h
      · exact ⟨a, List.mem_cons_self .., b, List.mem_cons_self .., h⟩
      · obtain ⟨a', ha, b', hb, hx⟩ := ih h
        exact ⟨a', List.mem_cons_of_mem _ ha, b', List.mem_cons_of_mem _ hb, hx⟩

/-- Helper: the raw cost rows of one sequence have one row per token. -/
theorem criticRawCosts_length {σ : Type} (step : σ → Nat → σ) (h0 : σ)
    (costHead : σ → List ℚ) (row : List Nat) :
    (criticRawCosts step h0 costHead row).length = row.length := by
  simp [criticRawCosts, gruOutputs, List.length_scanl]

/-- Helper: every raw cost row is an output of the cost head. -/
theorem criticRawCosts_row_length {σ : Type} {step : σ → Nat → σ} {h0 : σ}
    {costHead : σ → List ℚ} {row : List Nat} {V : Nat}
    (hV : ∀ h, (costHead h).length = V) :
    ∀ cv ∈ criticRawCosts step h0 costHead row, cv.length = V := by
  intro cv hcv
  unfold criticRawCosts at hcv
  obtain ⟨h, _, rfl⟩ := List.mem_map.mp (List.mem_of_mem_dropLast hcv)
  exact hV h

/-- Helper: discounting does not change the number of cost rows. -/
theorem discountRow_length (gamma : ℚ) (costs : List (List ℚ)) :
    (discountRow gamma costs).length = costs.length := by
  unfold discountRow
  split
  · simp
  · rfl

/-- Helper: discounting does not change the length of any cost row. -/
theorem discountRow_row_length {gamma : ℚ} {costs : List (List ℚ)} {V : Nat}
    (hV : ∀ cv ∈ costs, cv.length = V) :
    ∀ cv ∈ discountRow gamma costs, cv.length = V := by
  intro cv h
  unfold discountRow at h
  split at h
  · obtain ⟨i, _, cv0, hcv0, rfl⟩ := exists_of_mem_zipWith h
    simp [hV cv0 hcv0]
  · exact hV cv h

/-- Helper: the forward pass on one sequence has one cost row per token. -/
theorem criticForwardRow_length {σ : Type} (step : σ → Nat → σ) (h0 : σ)
    (costHead : σ → List ℚ) (gamma s : ℚ) (row : List Nat) :
    (criticForwardRow step h0 costHead gamma s row).length = row.length := by
  simp [criticForwardRow, discountRow_length, criticRawCosts_length]

/-- Helper: every cost row of the forward pass on one sequence has
vocabulary length. -/
theorem criticForwardRow_row_length {σ : Type} {step : σ → Nat → σ} {h0 : σ}
    {costHead : σ → List ℚ} {gamma s : ℚ} {row : List Nat} {V : Nat}
    (hV : ∀ h, (costHead h).length = V) :
    ∀ cv ∈ criticForwardRow step h0 costHead gamma s row, cv.length = V := by
  intro cv h
  unfold criticForwardRow at h
  obtain ⟨cv0, hcv0, rfl⟩ := List.mem_map.mp h
  simpa using discountRow_row_length (criticRawCosts_row_length hV) cv0 hcv0

/-- Helper: branch of the smoothing away from zero cost. -/
theorem smoothCost_eq_abs_sub {s c : ℚ} (hs : 1 / 10000 < s) (h : s ≤ |c|) :
    smoothCost s c = |c| - s / 2 := by
  simp only [smoothCost, if_pos hs, if_pos h]
  ring

/-- Helper: branch of the smoothing near zero cost. -/
theorem smoothCost_eq_sq {s c : ℚ} (hs : 1 / 10000 < s) (h : |c| < s) :
    smoothCost s c = c ^ 2 / (s * 2) := by
  simp only [smoothCost, if_pos hs, if_neg (not_le.mpr h)]
  ring

/-- Helper: smoothing disabled at a small threshold. -/
theorem smoothCost_eq_abs {s : ℚ} (c : ℚ) (hs : s ≤ 1 / 10000) :
    smoothCost s c = |c| := by
  simp only [smoothCost, if_neg (not_lt.mpr hs)]

/-- Helper: the smoothed cost is never negative. -/
theorem smoothCost_nonneg (s c : ℚ) : 0 ≤ smoothCost s c := by
  rcases le_or_lt s (1 / 10000) with hs | hs
  · rw [smoothCost_eq_abs c hs]
    positivity
  · rcases le_or_lt s |c| with h | h
    · rw [smoothCost_eq_abs_sub hs h]
      have habs : 0 ≤ |c| := abs_nonneg c
      linarith
    · rw [smoothCost_eq_sq hs h]
      positivity

/-- Helper: derivative of the quadratic smoothing branch at the boundary. -/
theorem deriv_sq_branch (t : ℝ) (ht : 0 < t) :
    deriv (fun x : ℝ => x ^ 2 / (t * 2)) t = 1 := by
  have h := ((hasDerivAt_pow 2 t).div_const (t * 2)).deriv
  rw [h]
  field_simp
  ring

/-- Helper: derivative of the shifted absolute-value branch at the
boundary. -/
theorem deriv_abs_branch (t : ℝ) (ht : 0 < t) :
    deriv (fun x : ℝ => |x| - t / 2) t = 1 := by
  have hev : (fun x : ℝ => |x| - t / 2) =ᶠ[nhds t] (fun x : ℝ => x - t / 2) := by
    filter_upwards [Ioi_mem_nhds ht] with x hx
    rw [abs_of_pos hx]
  rw [hev.deriv_eq]
  exact ((hasDerivAt_id t).sub_const (t / 2)).deriv

/-- C5: the smoothed cost transform maps a cost c with absolute value below
the smooth_zero threshold s to c ^ 2 / (2 s) and otherwise to |c| - s / 2;
at the branch boundary the two branches agree in value (both s / 2) and in
first derivative, and the transform returns the plain absolute value when
the threshold is at most the 1e-4 cutoff modelling an approximately zero
threshold. -/
theorem c5_smooth_cost_transform (s c : ℚ) (hs : 1 / 10000 < s) :
    (|c| < s → smoothCost s c = c ^ 2 / (s * 2)) ∧
    (s ≤ |c| → smoothCost s c = |c| - s / 2) ∧
    smoothCost s s = s / 2 ∧
    s ^ 2 / (s * 2) = s / 2 ∧
    (∀ t : ℝ, 0 < t →
      deriv (fun x : ℝ => x ^ 2 / (t * 2)) t = deriv (fun x : ℝ => |x| - t / 2) t) ∧
    (∀ s0 c0 : ℚ, s0 ≤ 1 / 10000 → smoothCost s0 c0 = |c0|) := by
  have hspos : 0 < s := lt_trans (by norm_num) hs
  have habs : |s| = s := abs_of_pos hspos
  refine ⟨fun h => smoothCost_eq_sq hs h, fun h => smoothCost_eq_abs_sub hs h, ?_, ?_, ?_, ?_⟩
  · rw [smoothCost_eq_abs_sub hs (le_of_eq habs.symm), habs]
    ring
  · field_simp
    ring
  · intro t ht
    rw [deriv_sq_branch t ht, deriv_abs_branch t ht]
  · intro s0 c0 hs0
    exact smoothCost_eq_abs c0 hs0

/-- Witness for C5 at the concrete threshold 1 and cost 1. -/
theorem c5_smooth_cost_transform_witness :
    (1 / 10000 : ℚ) < 1 ∧ smoothCost 1 1 = 1 / 2 :=
  ⟨by norm_num, (c5_smooth_cost_transform 1 1 (by norm_num)).2.2.1⟩

/-- C6 counterexample. First, with gamma equal to 1 - 1e-9 the code applies
no discounting although gamma is strictly below 1, because the forward pass
only discounts when gamma is below 1 - 1e-8: the two cost rows of ones come
back unchanged even though multiplying the step-1 cost by gamma ^ 1 would
change it. Second, with the configured gamma 2 and increment 0 the gamma
value exceeds 1 at iteration 0 and strictly decreases at the first update,
so the claim also needs its implicit configuration assumptions. -/
theorem c6_counterexample :
    ((1 - 1 / 1000000000 : ℚ) < 1 ∧
      discountRow (1 - 1 / 1000000000 : ℚ) [[1], [1]] = [[1], [1]] ∧
      (1 : ℚ) * (1 - 1 / 1000000000 : ℚ) ^ 1 ≠ 1) ∧
    (¬ gammaSeq 2 0 0 ≤ 1) ∧
    gammaSeq 2 0 1 < gammaSeq 2 0 0 := by
  refine ⟨⟨by norm_num, ?_, by norm_num⟩, ?_, ?_⟩
  · unfold discountRow
    rw [if_neg (by norm_num)]
  · simp [gammaSeq]
  · simp [gammaSeq, gammaUpdate]

/-- C6 amended: for a configured discount factor at most 1 and a
non-negative increment, the critic gamma is monotonically non-decreasing
across outer iterations and never exceeds 1; at the end of every iteration
gamma is updated to min (gamma + gamma_inc) 1; and discounting (multiplying
the cost row at step i by gamma ^ i) is applied in the forward pass exactly
when gamma is below 1 - 1e-8 (not exactly when gamma is below 1). -/
theorem c6_gamma_monotone_discount_tolerance (gamma0 inc : ℚ)
    (h0 : gamma0 ≤ 1) (hinc : 0 ≤ inc) :
    (∀ n, gammaSeq gamma0 inc n ≤ gammaSeq gamma0 inc (n + 1)) ∧
    (∀ n, gammaSeq gamma0 inc n ≤ 1) ∧
    (∀ n, gammaSeq gamma0 inc (n + 1) = min (gammaSeq gamma0 inc n + inc) 1) ∧
    (∀ gamma : ℚ, ∀ costs : List (List ℚ),
      (gamma < 1 - 1 / 100000000 →
        discountRow gamma costs =
          List.zipWith (fun i cv => cv.map (fun c => c * gamma ^ i))
            (List.range costs.length) costs) ∧
      (1 - 1 / 100000000 ≤ gamma → discountRow gamma costs = costs)) := by
  have hle : ∀ n, gammaSeq gamma0 inc n ≤ 1 := by
    intro n
    induction n with
    | zero => exact h0
    | succ n _ => exact min_le_right _ _
  refine ⟨fun n => ?_, hle, fun n => rfl, fun gamma costs => ⟨fun h => ?_, fun h => ?_⟩⟩
  · exact le_min (le_add_of_nonneg_right hinc) (hle n)
  · unfold discountRow
    rw [if_pos h]
  · unfold discountRow
    rw [if_neg (not_lt.mpr h)]

/-- Witness for the amended C6 at gamma 1/2 and increment 1/10. -/
theorem c6_gamma_monotone_discount_tolerance_witness :
    (1 / 2 : ℚ) ≤ 1 ∧ (0 : ℚ) ≤ 1 / 10 ∧ gammaSeq (1 / 2) (1 / 10) 1 ≤ 1 :=
  ⟨by norm_num, by norm_num,
    (c6_gamma_monotone_discount_tolerance (1 / 2) (1 / 10) (by norm_num) (by norm_num)).2.1 1⟩

/-- C7: for a batch of B sequences of length T and a cost head of
vocabulary size V, the critic forward pass returns B sequences of T cost
rows of V entries each (the start token is prepended and the final position
dropped, realigning to T), and the per-token gather returns a B by T
table. -/
theorem c7_critic_shapes {σ : Type} (step : σ → Nat → σ) (h0 : σ) (costHead : σ → List ℚ)
    (gamma s : ℚ) (B T V : Nat) (actions : List (List Nat))
    (hB : actions.length = B) (hT : ∀ row ∈ actions, row.length = T)
    (hV : ∀ h, (costHead h).length = V) :
    (criticForward step h0 costHead gamma s actions).length = B ∧
    (∀ crow ∈ criticForward step h0 costHead gamma s actions,
      crow.length = T ∧ ∀ cv ∈ crow, cv.length = V) ∧
    (gatherTaken (criticForward step h0 costHead gamma s actions) actions).length = B ∧
    (∀ grow ∈ gatherTaken (criticForward step h0 costHead gamma s actions) actions,
      grow.length = T) := by
  refine ⟨by simp [criticForward, hB], ?_, ?_, ?_⟩
  · intro crow hcrow
    obtain ⟨row, hrow, rfl⟩ := List.mem_map.mp hcrow
    exact ⟨by rw [criticForwardRow_length, hT row hrow], criticForwardRow_row_length hV⟩
  · simp [gatherTaken, criticForward, hB]
  · intro grow hgrow
    obtain ⟨crow, hcrow, arow, harow, rfl⟩ := exists_of_mem_zipWith hgrow
    obtain ⟨row, hrow, rfl⟩ := List.mem_map.mp hcrow
    rw [List.length_zipWith, criticForwardRow_length, hT row hrow, hT arow harow, min_self]

/-- Witness for C7 on a concrete batch: two sequences of two tokens, a
one-entry cost head over the unit hidden state. -/
theorem c7_critic_shapes_witness :
    ([[1, 2], [3, 4]] : List (List Nat)).length = 2 ∧
    (∀ row ∈ ([[1, 2], [3, 4]] : List (List Nat)), row.length = 2) ∧
    ([(0 : ℚ)].length = 1) ∧
    (criticForward (fun (_ : Unit) _ => ()) () (fun _ => [(0 : ℚ)]) 1 1
      [[1, 2], [3, 4]]).length = 2 :=
  ⟨by decide, by decide, rfl,
    (c7_critic_shapes (fun (_ : Unit) _ => ()) () (fun _ => [(0 : ℚ)]) 1 1 2 2 1
      [[1, 2], [3, 4]] (by decide) (by decide) (fun _ => rfl)).1⟩

/-- C10: every entry of the cost tensor returned by the critic forward pass
is non-negative, in both smoothing branches: the shifted absolute-value
branch is at least s / 2, the quadratic branch is a non-negative square,
and the plain absolute value returned with smoothing disabled is
non-negative; discounting happens before the absolute value, so it cannot
make entries negative. -/
theorem c10_costs_nonneg {σ : Type} (step : σ → Nat → σ) (h0 : σ) (costHead : σ → List ℚ)
    (gamma s : ℚ) (actions : List (List Nat)) (crow : List (List ℚ)) (cv : List ℚ) (x : ℚ)
    (hcrow : crow ∈ criticForward step h0 costHead gamma s actions)
    (hcv : cv ∈ crow) (hx : x ∈ cv) :
    0 ≤ x ∧
    (∀ c : ℚ, 1 / 10000 < s → s ≤ |c| →
      smoothCost s c = |c| - s / 2 ∧ s / 2 ≤ smoothCost s c) ∧
    (∀ c : ℚ, 1 / 10000 < s → |c| < s →
      smoothCost s c = c ^ 2 / (s * 2) ∧ 0 ≤ c ^ 2 / (s * 2)) ∧
    (∀ c : ℚ, s ≤ 1 / 10000 → smoothCost s c = |c| ∧ 0 ≤ |c|) := by
  refine ⟨?_, fun c hs h => ⟨smoothCost_eq_abs_sub hs h, ?_⟩,
    fun c hs h => ⟨smoothCost_eq_sq hs h, by positivity⟩,
    fun c hs => ⟨smoothCost_eq_abs c hs, abs_nonneg c⟩⟩
  · obtain ⟨row, _, rfl⟩ := List.mem_map.mp hcrow
    obtain ⟨cv0, _, rfl⟩ := List.mem_map.mp hcv
    obtain ⟨c, _, rfl⟩ := List.mem_map.mp hx
    exact smoothCost_nonneg s c
  · rw [smoothCost_eq_abs_sub hs h]
    have habs : s ≤ |c| := h
    linarith

/-- Witness for C10 on a concrete batch with a negative raw cost. -/
theorem c10_costs_nonneg_witness :
    ([[(5 / 2 : ℚ), 3 / 2]] ∈
        criticForward (fun (_ : Unit) _ => ()) () (fun _ => [(-3 : ℚ), 2]) 1 1 [[0]]) ∧
    ([(5 / 2 : ℚ), 3 / 2] ∈ [[(5 / 2 : ℚ), 3 / 2]]) ∧
    ((5 / 2 : ℚ) ∈ [(5 / 2 : ℚ), 3 / 2]) ∧
    (0 : ℚ) ≤ 5 / 2 := by
  have hcf : criticForward (fun (_ : Unit) _ => ()) () (fun _ => [(-3 : ℚ), 2]) 1 1 [[0]]
      = [[[5 / 2, 3 / 2]]] := by
    simp only [criticForward, criticForwardRow, criticRawCosts, gruOutputs, discountRow,
      List.scanl, List.tail, List.map, List.dropLast, List.length]
    norm_num
    constructor <;> (rw [smoothCost]; norm_num)
  have h1 : [[(5 / 2 : ℚ), 3 / 2]] ∈
      criticForward (fun (_ : Unit) _ => ()) () (fun _ => [(-3 : ℚ), 2]) 1 1 [[0]] := by
    rw [hcf]
    exact List.mem_cons_self _ _
  have h2 : [(5 / 2 : ℚ), 3 / 2] ∈ [[(5 / 2 : ℚ), 3 / 2]] := List.mem_cons_self _ _
  have h3 : (5 / 2 : ℚ) ∈ [(5 / 2 : ℚ), 3 / 2] := List.mem_cons_self _ _
  exact ⟨h1, h2, h3, (c10_costs_nonneg (fun (_ : Unit) _ => ()) () (fun _ => [(-3 : ℚ), 2])
    1 1 [[0]] [[(5 / 2 : ℚ), 3 / 2]] [(5 / 2 : ℚ), 3 / 2] (5 / 2) h1 h2 h3).1⟩

/-- C4: the actor-phase loss computed by the code equals the spec formula:
the mean over the batch of (advantage times importance-correction times
log-probability of the token taken) minus entropy_reg times entropy, where
with use_advantage on the advantage is the per-token critic cost minus the
expected critic cost under the actor distribution (sum over the vocabulary
of cost times probability), and with use_advantage off it is the plain
per-token critic cost. -/
theorem c4_actor_loss {B T V : Nat} (useAdvantage : Bool) (entropyReg : ℚ)
    (costs probs logprobs : Fin B → Fin T → Fin V → ℚ)
    (corrections : Fin B → Fin T → ℚ) (gen : Fin B → Fin T → Fin V) :
    codeActorLoss useAdvantage entropyReg costs probs logprobs corrections gen =
      specActorLoss useAdvantage entropyReg costs probs logprobs corrections gen := by
  cases useAdvantage <;>
    simp [codeActorLoss, specActorLoss, gatherBT, actorBaseline, actorEntropy]

/-- C8: configuration errors are fatal at startup. An unknown task name
aborts with an error; a replay capacity below the batch size aborts; and
whenever the startup checks fail the whole program result is that startup
error, so no training iteration contributes to it. -/
theorem c8_startup_config_errors {α : Type} (o : StartupOpt) (trainingLoop : StartupOpt → α) :
    (¬ (o.task = "words" ∨ o.task = "longterm" ∨ o.task = "lm") →
      runProgram o trainingLoop = Except.error ("error: invalid task name: " ++ o.task)) ∧
    (replaySize o < o.batchSize → ∃ e, runProgram o trainingLoop = Except.error e) ∧
    (∀ e, startupChecks o = Except.error e → runProgram o trainingLoop = Except.error e) := by
  refine ⟨fun h => ?_, fun h => ?_, fun e he => ?_⟩
  · unfold runProgram startupChecks
    rw [if_neg h]
    rfl
  · unfold runProgram startupChecks
    by_cases htask : o.task = "words" ∨ o.task = "longterm" ∨ o.task = "lm"
    · rw [if_pos htask, if_neg (not_le.mpr h)]
      exact ⟨_, rfl⟩
    · rw [if_neg htask]
      exact ⟨_, rfl⟩
  · unfold runProgram
    rw [he]
    rfl

/-- Witness for C8 at concrete configurations: the task name "foo" is
unknown and aborts; the "words" task with batch size 2 and zero replay
actors has replay capacity 0 below 2 and aborts. -/
theorem c8_startup_config_errors_witness :
    (¬ (("foo" = "words") ∨ ("foo" = "longterm") ∨ ("foo" = "lm"))) ∧
    runProgram ⟨"foo", 2, 1, 1⟩ (fun _ => (0 : Nat)) =
      Except.error ("error: invalid task name: " ++ "foo") ∧
    replaySize ⟨"words", 2, 0, 1⟩ < 2 ∧
    ∃ e, runProgram ⟨"words", 2, 0, 1⟩ (fun _ => (0 : Nat)) = Except.error e :=
  ⟨by decide, (c8_startup_config_errors ⟨"foo", 2, 1, 1⟩ (fun _ => (0 : Nat))).1 (by decide),
    by decide, (c8_startup_config_errors ⟨"words", 2, 0, 1⟩ (fun _ => (0 : Nat))).2.1 (by decide)⟩

end ImitationGan
